import Mathlib

/-!
Verification of the canvas-live real-time fanout subsystem.

The Go sources are embedded shallowly: each function becomes a Lean
definition over explicit inputs standing for the external environment
(broker attempt outcomes, poll events, HTTP request data), and the
claims of the specification are settled as theorems about these
definitions.
-/

namespace CanvasLive

/-! ## Connection manager retry loops

`connectProducer` (UpdatesService main), `connectConsumerWithRetry` and
`subscribeWithRetry` (DocumentUpdatesConsumer main) are all loops of the
same shape: attempt, return on success, otherwise sleep 5 seconds and
retry.  An attempt's outcome is an input: attempt `k` of a run is
described by the environment function at `k`.
-/

/-- Outcome of one producer/consumer connect attempt: whether the client
construction call returned no error, and whether the follow-up
`GetMetadata` verification round-trip returned no error. -/
structure ConnectAttempt where
  newOk : Bool
  metaOk : Bool
deriving DecidableEq, Repr

/-- A connect attempt succeeds only when construction succeeded and the
metadata round-trip verified the broker is reachable. -/
def attemptSucceeds (a : ConnectAttempt) : Bool :=
  a.newOk && a.metaOk

/-- Result of running a retry loop: the final outcome together with the
list of sleep durations (in seconds) performed between attempts. -/
structure RunOf (α : Type) where
  result : α
  sleeps : List Nat
deriving DecidableEq, Repr

/-- Common retry-loop skeleton: starting at attempt index `i` with
`fuel` attempts remaining, return the index of the first successful
attempt, sleeping 5 seconds after each failure; `none` when all `fuel`
attempts fail. -/
def retryAux (succ : Nat → Bool) : Nat → Nat → RunOf (Option Nat)
  | 0, _ => ⟨none, []⟩
  | fuel + 1, i =>
    if succ i then ⟨some i, []⟩
    else
      let r := retryAux succ fuel (i + 1)
      ⟨r.result, 5 :: r.sleeps⟩

/-- `connectProducer` from the UpdatesService main: up to 30 attempts
(`maxRetries := 30`), each verified with a metadata round-trip, 5-second
sleep between attempts; returns the producer (index of the successful
attempt) or, after 30 failures, an error carrying the attempt count. -/
def connectProducer (att : Nat → ConnectAttempt) : RunOf (Except Nat Nat) :=
  let r := retryAux (fun k => attemptSucceeds (att k)) 30 0
  ⟨match r.result with
   | some k => Except.ok k
   | none => Except.error 30,
   r.sleeps⟩

/-- `connectConsumerWithRetry` from the DocumentUpdatesConsumer main: an
unconditional `for` loop that returns only once `NewConsumer` and the
verifying `GetMetadata` both succeed, sleeping 5 seconds after each
failure.  The unbounded loop is observed through `fuel` iterations:
`none` means the loop is still running after `fuel` attempts. -/
def connectConsumerWithRetry (att : Nat → ConnectAttempt) (fuel : Nat) :
    RunOf (Option Nat) :=
  retryAux (fun k => attemptSucceeds (att k)) fuel 0

/-- Outcome of `subscribeWithRetry`: normal return with the index of the
successful attempt, or process termination through `log.Fatalf`. -/
inductive SubscribeOutcome
  | ok (attempt : Nat)
  | fatal
deriving DecidableEq, Repr

/-- `subscribeWithRetry` from the DocumentUpdatesConsumer main:
`maxRetries := 20` subscribe attempts at a 5-second interval; returns
normally on the first success and calls `log.Fatalf` (process
termination) once all 20 attempts have failed. -/
def subscribeWithRetry (att : Nat → Bool) : RunOf SubscribeOutcome :=
  let r := retryAux att 20 0
  ⟨match r.result with
   | some k => SubscribeOutcome.ok k
   | none => SubscribeOutcome.fatal,
   r.sleeps⟩

/-! Characterization of the retry skeleton by the first successful
attempt index. -/

lemma find?_map_succ (p : Nat → Bool) (l : List Nat) :
    (l.map Nat.succ).find? p = (l.find? (fun k => p (k + 1))).map Nat.succ := by
  induction l with
  | nil => rfl
  | cons a t ih =>
    by_cases h : p (a + 1)
    · simp [List.find?_cons, Nat.succ_eq_add_one, h]
    · simp [List.find?_cons, Nat.succ_eq_add_one, h, ih]

lemma retryAux_eq (succ : Nat → Bool) :
    ∀ fuel i, retryAux succ fuel i =
      match (List.range fuel).find? (fun k => succ (i + k)) with
      | some k => ⟨some (i + k), List.replicate k 5⟩
      | none => ⟨none, List.replicate fuel 5⟩ := by
  intro fuel
  induction fuel with
  | zero => intro i; rfl
  | succ fuel ih =>
    intro i
    rw [List.range_succ_eq_map]
    by_cases h : succ i
    · simp [retryAux, h, List.find?_cons]
    · have hp : (fun k => succ (i + (k + 1))) = (fun k => succ ((i + 1) + k)) := by
        funext k
        congr 1
        omega
      rw [retryAux]
      simp only [h, if_false, List.find?_cons, Nat.add_zero]
      rw [find?_map_succ]
      simp only [Bool.false_eq_true, if_false]
      rw [hp, ih (i + 1)]
      cases hfind : (List.range fuel).find? (fun k => succ ((i + 1) + k)) with
      | none => simp [hfind, List.replicate_succ]
      | some k =>
        simp only [hfind, Option.map_some]
        have h1 : (i + 1) + k = i + (k + 1) := by omega
        simp [Nat.succ_eq_add_one, h1, List.replicate_succ]

lemma retryAux_from_zero (succ : Nat → Bool) (fuel : Nat) :
    retryAux succ fuel 0 =
      match (List.range fuel).find? succ with
      | some k => ⟨some k, List.replicate k 5⟩
      | none => ⟨none, List.replicate fuel 5⟩ := by
  rw [retryAux_eq]
  have h : (fun k => succ (0 + k)) = succ := by
    funext k
    rw [Nat.zero_add]
  rw [h]
  cases hf : (List.range fuel).find? succ with
  | none => simp [hf]
  | some k => simp [hf, Nat.zero_add]

/-- Claim C1, counterexample: with the broker unreachable for every
attempt, the gateway's `connectProducer` does not retry forever — it
stops after 30 attempts (its `maxRetries` ceiling), having slept 5
seconds after each failure, and exits non-fatally with an error (its
caller then returns from `main`), contradicting the claim that producer
connect establishment has no retry ceiling and returns only upon a
successful connection. -/
theorem connectProducer_hits_retry_ceiling :
    connectProducer (fun _ => ⟨false, false⟩) =
      ⟨Except.error 30, List.replicate 30 5⟩ := by
  rfl

/-- Claim C1, amended: the consumer's `connectConsumerWithRetry` retries
at a fixed 5-second interval with no ceiling, returning only at the
first attempt whose connection is verified successful (after any number
of failures the loop is still running); the gateway's `connectProducer`
also retries at a fixed 5-second interval and returns at the first
verified-successful attempt, but only within a 30-attempt ceiling, after
which it returns an error.  Both loops are characterized by the first
successful attempt index. -/
theorem connect_initial_retry_behaviour :
    (∀ (att : Nat → ConnectAttempt) (fuel : Nat),
      connectConsumerWithRetry att fuel =
        match (List.range fuel).find? (fun k => attemptSucceeds (att k)) with
        | some k => ⟨some k, List.replicate k 5⟩
        | none => ⟨none, List.replicate fuel 5⟩)
    ∧ (∀ att : Nat → ConnectAttempt,
      connectProducer att =
        match (List.range 30).find? (fun k => attemptSucceeds (att k)) with
        | some k => ⟨Except.ok k, List.replicate k 5⟩
        | none => ⟨Except.error 30, List.replicate 30 5⟩) := by
  constructor
  · intro att fuel
    unfold connectConsumerWithRetry
    rw [retryAux_from_zero]
  · intro att
    unfold connectProducer
    rw [retryAux_from_zero]
    cases hf : (List.range 30).find? (fun k => attemptSucceeds (att k)) <;>
      simp [hf]

/-- Claim C3: `subscribeWithRetry` returns normally exactly when one of
the first 20 subscribe attempts succeeds, and then at the first such
attempt, having slept 5 seconds after each preceding failure; when all
20 attempts fail it ends in `log.Fatalf` (fatal process termination),
never returning normally past the ceiling. -/
theorem subscribeWithRetry_first_success_or_fatal (att : Nat → Bool) :
    subscribeWithRetry att =
      match (List.range 20).find? att with
      | some k => ⟨SubscribeOutcome.ok k, List.replicate k 5⟩
      | none => ⟨SubscribeOutcome.fatal, List.replicate 20 5⟩ := by
  unfold subscribeWithRetry
  rw [retryAux_from_zero]
  cases hf : (List.range 20).find? att <;> simp [hf]

/-! ## Consumer poll loop

The `main` of DocumentUpdatesConsumer polls for events in a loop guarded
by `run`.  A `*kafka.Message` is unmarshalled; on success a fresh
5-second-deadline context is created and a goroutine dispatched with it;
a `kafka.Error` event terminates the loop when its code is
`ErrAllBrokersDown`, otherwise it is only logged; other events are
ignored.
-/

/-- Modelled from the spec: the Edit Event carried in a message value
(the consumer's `types.Message` package is not among the sources; §3
gives `{documentID, payload, ...}` and §6 the `producedVersion` field
consumed by `ApplyEdit`). -/
structure EditEvent where
  documentID : String
  payload : String
  producedVersion : Nat
deriving DecidableEq, Repr

/-- `kafka.ErrAllBrokersDown` (librdkafka code -187). -/
def errAllBrokersDown : Int := -187

/-- One event returned by `consumer.Poll(100)`: nothing, a message
(already carrying the result of `json.Unmarshal` on its value), an
error event with its code, or an ignored event kind. -/
inductive PollEvent
  | nilEvent
  | message (decoded : Option EditEvent)
  | kafkaError (code : Int)
  | otherEvent
deriving DecidableEq, Repr

/-- One dispatched per-message unit of work: the goroutine receives its
own context (identified by the poll-loop iteration that created it) with
its own cancel, carrying a 5-second deadline. -/
structure Dispatch where
  ctxId : Nat
  deadlineSec : Nat
  msg : EditEvent
deriving DecidableEq, Repr

/-- Observable state of the poll loop: the `run` flag and the dispatch
list accumulated so far. -/
structure ConsumerState where
  run : Bool
  dispatched : List Dispatch
deriving DecidableEq, Repr

/-- One iteration body of the consumer poll loop (the `switch` on the
polled event), at iteration index `idx`. -/
def pollStep (idx : Nat) (s : ConsumerState) (ev : PollEvent) : ConsumerState :=
  match ev with
  | .nilEvent => s
  | .message none => s
  | .message (some m) =>
    { s with dispatched := s.dispatched ++ [⟨idx, 5, m⟩] }
  | .kafkaError code =>
    if code = errAllBrokersDown then { s with run := false } else s
  | .otherEvent => s

/-- The `for run` poll loop over a finite schedule of events, starting
at iteration `i`; the loop stops consuming as soon as `run` is false. -/
def consumerLoopAux : Nat → ConsumerState → List PollEvent → ConsumerState
  | _, s, [] => s
  | i, s, ev :: rest =>
    if s.run then consumerLoopAux (i + 1) (pollStep i s ev) rest else s

/-- The consumer poll loop as entered from `main`. -/
def consumerLoop (events : List PollEvent) : ConsumerState :=
  consumerLoopAux 0 ⟨true, []⟩ events

/-- Whether a poll event is a message whose value unmarshals. -/
def isDecodedMessage : PollEvent → Bool
  | .message (some _) => true
  | _ => false

/-- Number of simultaneously live per-message goroutines under the
schedule in which no handler completes while the loop runs: every
dispatched task is still live. -/
def liveTasksNoCompletion (events : List PollEvent) : Nat :=
  (consumerLoop events).dispatched.length

/-- A poll step either leaves the dispatch list unchanged or appends a
single fresh dispatch for the current iteration with a 5-second
deadline. -/
lemma pollStep_dispatched (i : Nat) (s : ConsumerState) (ev : PollEvent) :
    (pollStep i s ev).dispatched = s.dispatched ∨
      ∃ m, (pollStep i s ev).dispatched = s.dispatched ++ [⟨i, 5, m⟩] := by
  cases ev with
  | nilEvent => exact Or.inl rfl
  | otherEvent => exact Or.inl rfl
  | message dec =>
    cases dec with
    | none => exact Or.inl rfl
    | some m => exact Or.inr ⟨m, rfl⟩
  | kafkaError code =>
    by_cases h : code = errAllBrokersDown <;> simp [pollStep, h]

/-- A poll step never raises the `run` flag. -/
lemma pollStep_run (i : Nat) (s : ConsumerState) (ev : PollEvent)
    (hrun : s.run = true) (hev : ev ≠ PollEvent.kafkaError errAllBrokersDown) :
    (pollStep i s ev).run = true := by
  cases ev with
  | nilEvent => exact hrun
  | otherEvent => exact hrun
  | message dec => cases dec <;> exact hrun
  | kafkaError code =>
    have hcode : ¬ code = errAllBrokersDown := fun hc => hev (by rw [hc])
    simp [pollStep, hcode, hrun]

lemma consumerLoopAux_count (events : List PollEvent) :
    ∀ i s, s.run = true →
      (∀ ev ∈ events, ev ≠ PollEvent.kafkaError errAllBrokersDown) →
      (consumerLoopAux i s events).dispatched.length =
        s.dispatched.length + (events.filter isDecodedMessage).length := by
  induction events with
  | nil =>
    intro i s _ _
    simp [consumerLoopAux]
  | cons ev rest ih =>
    intro i s hrun hno
    have hno' : ∀ e ∈ rest, e ≠ PollEvent.kafkaError errAllBrokersDown :=
      fun e he => hno e (List.mem_cons_of_mem _ he)
    have hev : ev ≠ PollEvent.kafkaError errAllBrokersDown :=
      hno ev (List.mem_cons_self _ _)
    rw [consumerLoopAux, if_pos hrun]
    have h2 := ih (i + 1) (pollStep i s ev) (pollStep_run i s ev hrun hev) hno'
    rcases pollStep_dispatched i s ev with hsame | ⟨m, happ⟩
    · have hmsg : isDecodedMessage ev = false := by
        cases ev with
        | nilEvent => rfl
        | otherEvent => rfl
        | kafkaError code => rfl
        | message dec =>
          cases dec with
          | none => rfl
          | some m =>
            exfalso
            rcases pollStep_dispatched i s (PollEvent.message (some m)) with h | h
            · simp [pollStep] at hsame
            · simp [pollStep] at hsame
      rw [h2, hsame, List.filter_cons, hmsg]
      simp
    · have hmsg : isDecodedMessage ev = true := by
        cases ev with
        | nilEvent => simp [pollStep] at happ
        | otherEvent => simp [pollStep] at happ
        | kafkaError code =>
          by_cases h : code = errAllBrokersDown <;> simp [pollStep, h] at happ
        | message dec =>
          cases dec with
          | none => simp [pollStep] at happ
          | some m2 => rfl
      rw [h2, happ, List.filter_cons, hmsg]
      simp
      omega

lemma consumerLoopAux_dispatch_invariant (events : List PollEvent) :
    ∀ i s,
      (∀ d ∈ s.dispatched, d.deadlineSec = 5 ∧ d.ctxId < i) →
      s.dispatched.Pairwise (fun a b => a.ctxId < b.ctxId) →
      (∀ d ∈ (consumerLoopAux i s events).dispatched,
          d.deadlineSec = 5) ∧
        (consumerLoopAux i s events).dispatched.Pairwise
          (fun a b => a.ctxId < b.ctxId) := by
  induction events with
  | nil =>
    intro i s hinv hpw
    exact ⟨fun d hd => (hinv d hd).1, hpw⟩
  | cons ev rest ih =>
    intro i s hinv hpw
    by_cases hrun : s.run = true
    · rw [consumerLoopAux, if_pos hrun]
      apply ih (i + 1)
      · intro d hd
        rcases pollStep_dispatched i s ev with hsame | ⟨m, happ⟩
        · rw [hsame] at hd
          exact ⟨(hinv d hd).1, Nat.lt_succ_of_lt (hinv d hd).2⟩
        · rw [happ] at hd
          rcases List.mem_append.mp hd with hold | hnew
          · exact ⟨(hinv d hold).1, Nat.lt_succ_of_lt (hinv d hold).2⟩
          · rcases List.mem_singleton.mp hnew with rfl
            exact ⟨rfl, Nat.lt_succ_self i⟩
      · rcases pollStep_dispatched i s ev with hsame | ⟨m, happ⟩
        · rw [hsame]; exact hpw
        · rw [happ]
          refine List.pairwise_append.mpr ⟨hpw, List.pairwise_singleton _ _, ?_⟩
          intro a ha b hb
          rcases List.mem_singleton.mp hb with rfl
          exact (hinv a ha).2
    · rw [consumerLoopAux, if_neg hrun]
      exact ⟨fun d hd => (hinv d hd).1, hpw⟩

/-- Under a no-completion schedule, a run of `n` decodable messages
leaves `n` tasks live. -/
lemma liveTasks_replicate (m : EditEvent) (n : Nat) :
    liveTasksNoCompletion (List.replicate n (PollEvent.message (some m))) = n := by
  have hno : ∀ ev ∈ List.replicate n (PollEvent.message (some m)),
      ev ≠ PollEvent.kafkaError errAllBrokersDown := by
    intro ev hev
    rw [List.eq_of_mem_replicate hev]
    intro h
    cases h
  have h := consumerLoopAux_count
    (List.replicate n (PollEvent.message (some m))) 0 ⟨true, []⟩ rfl hno
  have hf : ((List.replicate n (PollEvent.message (some m))).filter
      isDecodedMessage).length = n := by
    induction n with
    | zero => rfl
    | succ k ihk =>
      simp only [List.replicate_succ, List.filter_cons]
      simp [isDecodedMessage, ihk]
  unfold liveTasksNoCompletion consumerLoop
  rw [h, hf]
  simp

/-- Claim C2: the consumer's own poll loop, evaluated at a
`kafka.Error` event with code `ErrAllBrokersDown`, sets `run` to false
(despite logging that it is attempting a reconnect), so the loop exits,
the message that follows is never consumed, and `main` proceeds to
shut the consumer down and return — the process terminates instead of
keeping running. -/
theorem pollLoop_exits_on_all_brokers_down :
    consumerLoop [PollEvent.kafkaError errAllBrokersDown,
        PollEvent.message (some ⟨"doc-1", "payload", 1⟩)] =
      ⟨false, []⟩ := by
  decide

/-- Claim C7, counterexample: there is no fixed bound on the number of
simultaneously live per-message tasks the poll loop spawns — for every
candidate bound, a long enough burst of decodable messages (with no
handler completing meanwhile) exceeds it, because each message is
dispatched on its own unpooled goroutine. -/
theorem pollLoop_inflight_unbounded :
    ¬ ∃ B : Nat, ∀ events : List PollEvent,
        liveTasksNoCompletion events ≤ B := by
  rintro ⟨B, hB⟩
  have h := hB (List.replicate (B + 1) (PollEvent.message (some ⟨"doc-1", "p", 1⟩)))
  rw [liveTasks_replicate] at h
  omega

/-- Claim C7, amended: the consumer's poll loop spawns one goroutine per
successfully decoded message with no bounded worker pool and no
in-flight counter: when no handler completes while the loop runs, the
number of simultaneously live per-message tasks equals the number of
messages received, for every burst length. -/
theorem pollLoop_one_task_per_message (m : EditEvent) (n : Nat) :
    liveTasksNoCompletion (List.replicate n (PollEvent.message (some m))) = n :=
  liveTasks_replicate m n

/-- Claim C8: every per-message dispatch the poll loop performs carries
a 5-second deadline; each dispatch has its own context (context
identifiers are pairwise distinct, so cancelling one on deadline expiry
touches no other task); and in a run in which the loop is never
terminated by an all-brokers-down error, each successfully decoded
message is dispatched exactly once — in particular the loop never
re-dispatches (retries) a message. -/
theorem pollLoop_dispatch_deadline_and_isolation (events : List PollEvent) :
    (∀ d ∈ (consumerLoop events).dispatched, d.deadlineSec = 5) ∧
      (consumerLoop events).dispatched.Pairwise
        (fun a b => a.ctxId ≠ b.ctxId) ∧
      ((∀ ev ∈ events, ev ≠ PollEvent.kafkaError errAllBrokersDown) →
        (consumerLoop events).dispatched.length =
          (events.filter isDecodedMessage).length) := by
  have hinv := consumerLoopAux_dispatch_invariant events 0 ⟨true, []⟩
    (by intro d hd; cases hd) (List.Pairwise.nil)
  refine ⟨hinv.1, hinv.2.imp (fun h => Nat.ne_of_lt h), ?_⟩
  intro hno
  have h := consumerLoopAux_count events 0 ⟨true, []⟩ rfl hno
  simpa using h

/-- Claim C8, witness: a concrete schedule of four poll events (two
decodable messages, one nil poll, one undecodable message) yields
exactly two dispatches, each with the 5-second deadline. -/
theorem pollLoop_dispatch_witness :
    ((consumerLoop [PollEvent.message (some ⟨"d", "p", 1⟩), PollEvent.nilEvent,
        PollEvent.message none, PollEvent.message (some ⟨"d", "q", 2⟩)]).dispatched.length =
      ([PollEvent.message (some ⟨"d", "p", 1⟩), PollEvent.nilEvent,
        PollEvent.message none,
        PollEvent.message (some ⟨"d", "q", 2⟩)].filter isDecodedMessage).length) ∧
      (∀ d ∈ (consumerLoop [PollEvent.message (some ⟨"d", "p", 1⟩), PollEvent.nilEvent,
          PollEvent.message none,
          PollEvent.message (some ⟨"d", "q", 2⟩)]).dispatched, d.deadlineSec = 5) :=
  ⟨(pollLoop_dispatch_deadline_and_isolation _).2.2 (by decide),
    (pollLoop_dispatch_deadline_and_isolation _).1⟩

/-! ## Document store apply (Ingestion Consumer side) -/

/-- The document store visible to the ingestion consumer: each document
identifier's current persisted version, as an association list. -/
abbrev Store := List (String × Nat)

/-- Current persisted version of a document (0 when absent). -/
def getVersion : Store → String → Nat
  | [], _ => 0
  | (d, v) :: rest, docId => if d = docId then v else getVersion rest docId

/-- Persist `v` as the version of `docId`. -/
def setVersion : Store → String → Nat → Store
  | [], docId, v => [(docId, v)]
  | (d, w) :: rest, docId, v =>
    if d = docId then (docId, v) :: rest
    else (d, w) :: setVersion rest docId v

/-- Result of applying one Edit Event to the store. -/
inductive ApplyResult
  | applied
  | stale
  | error
deriving DecidableEq, Repr

/-- Modelled from the spec: the document store collaborator's
`ApplyEdit(documentID, payload, producedVersion) -> {applied|stale|error}`
(the consumer's `handler`/`repository` packages are not among the
sources).  An event older than the document's current persisted version
is discarded as stale without error; otherwise the edit is applied and
the produced version becomes the persisted version. -/
def ApplyEdit (s : Store) (e : EditEvent) : ApplyResult × Store :=
  if e.producedVersion < getVersion s e.documentID then (ApplyResult.stale, s)
  else (ApplyResult.applied, setVersion s e.documentID e.producedVersion)

lemma getVersion_setVersion (s : Store) (d : String) (v : Nat) :
    getVersion (setVersion s d v) d = v := by
  induction s with
  | nil => simp [setVersion, getVersion]
  | cons p rest ih =>
    by_cases h : p.1 = d
    · simp [setVersion, h, getVersion]
    · simp [setVersion, h, getVersion, ih]

lemma setVersion_idem (s : Store) (d : String) (v : Nat) :
    setVersion (setVersion s d v) d v = setVersion s d v := by
  induction s with
  | nil => simp [setVersion]
  | cons p rest ih =>
    by_cases h : p.1 = d
    · simp [setVersion, h]
    · simp [setVersion, h, ih]

/-- Claim C4: applying the same Edit Event twice leaves the store — in
particular the document's resulting version — exactly as a single
application does, and an event whose produced version is lower than the
current persisted version is discarded as `stale`, not an error, with
the store unchanged. -/
theorem applyEdit_idempotent_and_stale_discard (s : Store) (e : EditEvent) :
    (ApplyEdit (ApplyEdit s e).2 e).2 = (ApplyEdit s e).2 ∧
      getVersion (ApplyEdit (ApplyEdit s e).2 e).2 e.documentID =
        getVersion (ApplyEdit s e).2 e.documentID ∧
      (e.producedVersion < getVersion s e.documentID →
        (ApplyEdit s e).1 = ApplyResult.stale ∧ (ApplyEdit s e).2 = s) := by
  by_cases h : e.producedVersion < getVersion s e.documentID
  · have h1 : ApplyEdit s e = (ApplyResult.stale, s) := by
      unfold ApplyEdit
      rw [if_pos h]
    refine ⟨?_, ?_, fun _ => ?_⟩
    · simp [h1]
    · simp [h1]
    · rw [h1]
      exact ⟨rfl, rfl⟩
  · have h1 : ApplyEdit s e =
        (ApplyResult.applied, setVersion s e.documentID e.producedVersion) := by
      unfold ApplyEdit
      rw [if_neg h]
    have h2 : (ApplyEdit (ApplyEdit s e).2 e).2 = (ApplyEdit s e).2 := by
      rw [h1]
      show (ApplyEdit (setVersion s e.documentID e.producedVersion) e).2 =
        setVersion s e.documentID e.producedVersion
      unfold ApplyEdit
      rw [getVersion_setVersion, if_neg (Nat.lt_irrefl _)]
      exact setVersion_idem s e.documentID e.producedVersion
    exact ⟨h2, by rw [h2], fun hc => absurd hc h⟩

/-- Claim C4, witness: on a store holding version 5 of document `d`, an
event carrying produced version 3 is discarded as stale with the store
unchanged, and replaying it changes nothing either. -/
theorem applyEdit_stale_witness :
    (ApplyEdit [("d", 5)] ⟨"d", "p", 3⟩).1 = ApplyResult.stale ∧
      (ApplyEdit [("d", 5)] ⟨"d", "p", 3⟩).2 = [("d", 5)] ∧
      (ApplyEdit (ApplyEdit [("d", 5)] ⟨"d", "p", 3⟩).2 ⟨"d", "p", 3⟩).2 =
        (ApplyEdit [("d", 5)] ⟨"d", "p", 3⟩).2 :=
  ⟨((applyEdit_idempotent_and_stale_discard [("d", 5)] ⟨"d", "p", 3⟩).2.2
      (by decide)).1,
    ((applyEdit_idempotent_and_stale_discard [("d", 5)] ⟨"d", "p", 3⟩).2.2
      (by decide)).2,
    (applyEdit_idempotent_and_stale_discard [("d", 5)] ⟨"d", "p", 3⟩).1⟩

/-! ## WebSocket upgrade handler (UpdatesService) -/

/-- Authenticated identity returned by the auth collaborator. -/
structure UserInfo where
  userID : String
  username : String
deriving DecidableEq, Repr

/-- The client state `WsHandler` builds and registers with the pool on
success (connection, queue and pool references elided). -/
structure Client where
  userID : String
  username : String
  documentID : String
deriving DecidableEq, Repr

/-- Observable outcome of one `WsHandler` invocation: the HTTP status
written before any upgrade, whether the WebSocket upgrade was attempted,
and the client registered with the pool, if any. -/
structure WsOutcome where
  httpStatus : Option Nat
  upgradeAttempted : Bool
  registered : Option Client
deriving DecidableEq, Repr

/-- `WsHandler` from the UpdatesService: missing document identifier is
a 400; a failed `authenticateToken` call or an empty returned user ID is
a 401 abort before the upgrade; otherwise the upgrade is attempted and,
when it succeeds, a client is created and registered. -/
def WsHandler (docId : String) (auth : Except String UserInfo)
    (upgradeOk : Bool) : WsOutcome :=
  if docId = "" then ⟨some 400, false, none⟩
  else
    match auth with
    | Except.error _ => ⟨some 401, false, none⟩
    | Except.ok u =>
      if u.userID = "" then ⟨some 401, false, none⟩
      else if upgradeOk then ⟨none, true, some ⟨u.userID, u.username, docId⟩⟩
      else ⟨none, true, none⟩

/-- Claim C5: whenever the bearer credential fails authentication — the
auth collaborator returns an error, or the user ID it returns is empty —
`WsHandler` writes an unauthorized 401 response and returns without
attempting the WebSocket upgrade and without creating or registering any
client. -/
theorem wsHandler_rejects_before_upgrade (docId : String)
    (auth : Except String UserInfo) (upgradeOk : Bool)
    (hdoc : docId ≠ "")
    (hfail : (∃ msg, auth = Except.error msg) ∨
      (∃ u, auth = Except.ok u ∧ u.userID = "")) :
    WsHandler docId auth upgradeOk = ⟨some 401, false, none⟩ := by
  unfold WsHandler
  rw [if_neg hdoc]
  rcases hfail with ⟨msg, rfl⟩ | ⟨u, rfl, hu⟩
  · rfl
  · simp [hu]

/-- Claim C5, witness: a concrete rejected credential on document
`doc-1` yields the 401 outcome with no upgrade and no registration. -/
theorem wsHandler_reject_witness :
    WsHandler "doc-1" (Except.error "authentication failed") true =
      ⟨some 401, false, none⟩ :=
  wsHandler_rejects_before_upgrade "doc-1"
    (Except.error "authentication failed") true (by decide)
    (Or.inl ⟨"authentication failed", rfl⟩)

/-! ## Auth service login handler -/

/-- Decoded login request body. -/
structure LoginData where
  email : String
  password : String
deriving DecidableEq, Repr

/-- Stored user record as used by `LoginUser` (identifier already in hex
form). -/
structure User where
  id : String
  username : String
  password : String
deriving DecidableEq, Repr

/-- One write performed on the HTTP response. -/
inductive HttpWrite
  | httpError (msg : String) (status : Nat)
  | notFoundPage (email : String)
  | jsonToken (accessToken : String)
deriving DecidableEq, Repr

/-- `LoginUser` from the auth service handler: decode the body, look the
user up by email, compare passwords, create a JWT and encode the token
response.  The password-mismatch branch writes a 401 but does not
return, and the token-creation-error branch writes a 500 but does not
return either (the token then encodes as the zero value). -/
def LoginUser (body : Option LoginData) (findUser : Except Unit (Option User))
    (createToken : String → String → String → Except Unit String) :
    List HttpWrite :=
  match body with
  | none => [HttpWrite.httpError "Invalid json data format" 400]
  | some ld =>
    match findUser with
    | Except.error _ =>
      [HttpWrite.httpError "Internal server error during database lookup" 500]
    | Except.ok none => [HttpWrite.notFoundPage ld.email]
    | Except.ok (some user) =>
      let unauthorizedWrites : List HttpWrite :=
        if user.password ≠ ld.password
        then [HttpWrite.httpError "Incorrect credentials" 401]
        else []
      match createToken user.id ld.email user.username with
      | Except.error _ =>
        unauthorizedWrites ++
          [HttpWrite.httpError "Error signing you in - Try again." 500,
            HttpWrite.jsonToken ""]
      | Except.ok tok => unauthorizedWrites ++ [HttpWrite.jsonToken tok]

/-- Claim C6: with an existing user whose stored password differs from
the supplied one, `LoginUser` writes the 401 "Incorrect credentials"
error and then still generates a JWT and writes the token response — the
401 branch is not an early exit, so an access token is issued despite
the failed password check. -/
theorem loginUser_issues_token_despite_401 :
    LoginUser (some ⟨"alice@example.com", "wrong-password"⟩)
        (Except.ok (some ⟨"507f1f77bcf86cd799439011", "alice", "right-password"⟩))
        (fun _ _ _ => Except.ok "signed-jwt") =
      [HttpWrite.httpError "Incorrect credentials" 401,
        HttpWrite.jsonToken "signed-jwt"] := by
  decide

/-! ## Hub broadcast with bounded per-connection queues -/

/-- A live connection in a document room: its identifier, its bounded
outbound queue (contents plus capacity, the `Send` channel the handler
creates for each client), and whether it has been forcibly closed. -/
structure Conn where
  id : Nat
  queue : List String
  capacity : Nat
  closed : Bool
deriving DecidableEq, Repr

/-- Modelled from the spec: one local broadcast cycle of the Hub (the
UpdatesService `websocket` package with `Pool` and `Client` is not among
the sources; only the handler constructing clients is).  The payload is
enqueued to every connection in the room except the sender; a connection
whose bounded queue is full is forcibly closed and unregistered from the
room in this same cycle, while delivery to the remaining connections
proceeds.  Returns the surviving room and the dropped connections. -/
def broadcastLocal (senderId : Nat) (payload : String) :
    List Conn → List Conn × List Conn
  | [] => ([], [])
  | c :: rest =>
    let r := broadcastLocal senderId payload rest
    if c.id = senderId then (c :: r.1, r.2)
    else if c.queue.length < c.capacity then
      ({ c with queue := c.queue ++ [payload] } :: r.1, r.2)
    else (r.1, { c with closed := true } :: r.2)

lemma broadcastLocal_fst (senderId : Nat) (payload : String) :
    ∀ room : List Conn, (broadcastLocal senderId payload room).1 =
      room.filterMap (fun c =>
        if c.id = senderId then some c
        else if c.queue.length < c.capacity then
          some { c with queue := c.queue ++ [payload] }
        else none) := by
  intro room
  induction room with
  | nil => rfl
  | cons c rest ih =>
    by_cases h1 : c.id = senderId
    · simp [broadcastLocal, h1, List.filterMap_cons, ih]
    · by_cases h2 : c.queue.length < c.capacity
      · simp [broadcastLocal, h1, h2, List.filterMap_cons, ih]
      · simp [broadcastLocal, h1, h2, List.filterMap_cons, ih]

lemma broadcastLocal_snd (senderId : Nat) (payload : String) :
    ∀ room : List Conn, (broadcastLocal senderId payload room).2 =
      (room.filter (fun c =>
        !(c.id == senderId) && decide (c.capacity ≤ c.queue.length))).map
        (fun c => { c with closed := true }) := by
  intro room
  induction room with
  | nil => rfl
  | cons c rest ih =>
    by_cases h1 : c.id = senderId
    · simp [broadcastLocal, h1, List.filter_cons, ih]
    · by_cases h2 : c.queue.length < c.capacity
      · have h3 : ¬ c.capacity ≤ c.queue.length := Nat.not_le.mpr h2
        simp [broadcastLocal, h1, h2, h3, List.filter_cons, ih]
      · have h3 : c.capacity ≤ c.queue.length := Nat.not_lt.mp h2
        simp [broadcastLocal, h1, h2, h3, List.filter_cons, ih]

lemma broadcastLocal_bounded (senderId : Nat) (payload : String) :
    ∀ room : List Conn, (∀ c ∈ room, c.queue.length ≤ c.capacity) →
      ∀ c ∈ (broadcastLocal senderId payload room).1,
        c.queue.length ≤ c.capacity := by
  intro room
  induction room with
  | nil =>
    intro _ c hc
    simp [broadcastLocal] at hc
  | cons c rest ih =>
    intro hb d hd
    have hbr : ∀ x ∈ rest, x.queue.length ≤ x.capacity :=
      fun x hx => hb x (List.mem_cons_of_mem _ hx)
    by_cases h1 : c.id = senderId
    · simp only [broadcastLocal, h1, if_pos, List.mem_cons] at hd
      rcases hd with rfl | hd
      · exact hb d (List.mem_cons_self _ _)
      · exact ih hbr d hd
    · by_cases h2 : c.queue.length < c.capacity
      · simp only [broadcastLocal, h1, h2, if_neg, if_pos, ite_true, ite_false,
          List.mem_cons] at hd
        rcases hd with rfl | hd
        · simp only [List.length_append, List.length_cons, List.length_nil]
          omega
        · exact ih hbr d hd
      · simp only [broadcastLocal, h1, h2, ite_false, ite_true] at hd
        exact ih hbr d hd

/-- Claim C9: in one broadcast cycle, the surviving room consists of the
sender plus every other connection whose bounded queue had room — each
of these receives the payload at the back of its queue, undelayed by any
slow consumer — while every non-sender connection whose queue is full is
forcibly closed and removed from the room in that same cycle; and queues
stay within their capacity bound. -/
theorem broadcast_bounded_queue_drop_policy (senderId : Nat)
    (payload : String) (room : List Conn) :
    (broadcastLocal senderId payload room).1 =
      room.filterMap (fun c =>
        if c.id = senderId then some c
        else if c.queue.length < c.capacity then
          some { c with queue := c.queue ++ [payload] }
        else none) ∧
      (broadcastLocal senderId payload room).2 =
        (room.filter (fun c =>
          !(c.id == senderId) && decide (c.capacity ≤ c.queue.length))).map
          (fun c => { c with closed := true }) ∧
      ((∀ c ∈ room, c.queue.length ≤ c.capacity) →
        ∀ c ∈ (broadcastLocal senderId payload room).1,
          c.queue.length ≤ c.capacity) :=
  ⟨broadcastLocal_fst senderId payload room,
    broadcastLocal_snd senderId payload room,
    broadcastLocal_bounded senderId payload room⟩

/-- Claim C9, witness: a room with the sender, one healthy connection
and one connection whose queue is full keeps every surviving queue
within its bound after the broadcast cycle. -/
theorem broadcast_drop_policy_witness :
    ∀ c ∈ (broadcastLocal 1 "m"
        [⟨1, [], 2, false⟩, ⟨2, [], 2, false⟩, ⟨3, ["a", "b"], 2, false⟩]).1,
      c.queue.length ≤ c.capacity :=
  (broadcast_bounded_queue_drop_policy 1 "m"
    [⟨1, [], 2, false⟩, ⟨2, [], 2, false⟩, ⟨3, ["a", "b"], 2, false⟩]).2.2
    (by decide)

/-! ## Topic provisioning at consumer startup -/

/-- Broker environment observed by `ensureTopicExists`: whether the
admin client construction succeeds, the metadata probe's outcome and the
number of topics it reports, whether the `CreateTopics` call itself
succeeds, and the per-topic result error codes it returns. -/
structure AdminEnv where
  adminClientOk : Bool
  metadataOk : Bool
  metadataTopicsCount : Nat
  createCallOk : Bool
  createResults : List Int
deriving DecidableEq, Repr

/-- `kafka.ErrNoError`. -/
def errNoError : Int := 0

/-- `kafka.ErrTopicAlreadyExists` (broker error code 36). -/
def errTopicAlreadyExists : Int := 36

/-- Outcome of `ensureTopicExists`: the returned error value and whether
the create-topic call was reached. -/
structure EnsureOutcome where
  result : Except String Unit
  createAttempted : Bool

/-- `ensureTopicExists` from the DocumentUpdatesConsumer main: build an
admin client, probe metadata and treat a reported topic as "already
exists", otherwise create the topic, accepting per-topic results whose
code is no-error or topic-already-exists, and failing on any other
code. -/
def ensureTopicExists (env : AdminEnv) : EnsureOutcome :=
  if env.adminClientOk = false then
    ⟨Except.error "failed to create admin client", false⟩
  else if env.metadataOk = true ∧ 0 < env.metadataTopicsCount then
    ⟨Except.ok (), false⟩
  else if env.createCallOk = false then
    ⟨Except.error "failed to create topic", true⟩
  else if env.createResults.all
      (fun c => c == errNoError || c == errTopicAlreadyExists) then
    ⟨Except.ok (), true⟩
  else
    ⟨Except.error "failed to create topic: bad result", true⟩

/-- The stages of the consumer `main` up to its poll loop. -/
inductive StartupStep
  | ensureTopicStep
  | warnAndContinue
  | createConsumer
  | subscribeTopic
  | pollMessages
deriving DecidableEq, Repr

/-- The startup sequence of the consumer `main`: ensure the topic,
log a warning and continue when that fails, then create the consumer,
subscribe, and enter the poll loop. -/
def consumerStartup (env : AdminEnv) : List StartupStep :=
  [StartupStep.ensureTopicStep] ++
    (match (ensureTopicExists env).result with
     | Except.error _ => [StartupStep.warnAndContinue]
     | Except.ok _ => []) ++
    [StartupStep.createConsumer, StartupStep.subscribeTopic,
      StartupStep.pollMessages]

/-- Claim C10: `ensureTopicExists` attempts creation whenever the
metadata probe does not report the topic, succeeds when every creation
result code is no-error or topic-already-exists (so "already exists" is
success), and on any provisioning failure `main` only logs a warning —
consumer creation and topic subscription are always reached. -/
theorem topic_provisioning_tolerant (env : AdminEnv) :
    (env.adminClientOk = true →
      ¬(env.metadataOk = true ∧ 0 < env.metadataTopicsCount) →
      (ensureTopicExists env).createAttempted = true) ∧
      (env.adminClientOk = true → env.createCallOk = true →
        (∀ c ∈ env.createResults,
          c = errNoError ∨ c = errTopicAlreadyExists) →
        (ensureTopicExists env).result = Except.ok ()) ∧
      (StartupStep.createConsumer ∈ consumerStartup env ∧
        StartupStep.subscribeTopic ∈ consumerStartup env) ∧
      (∀ msg, (ensureTopicExists env).result = Except.error msg →
        StartupStep.warnAndContinue ∈ consumerStartup env) := by
  refine ⟨?_, ?_, ?_, ?_⟩
  · intro hA hM
    by_cases hC : env.createCallOk = false
    · simp [ensureTopicExists, hA, hM, hC]
    · by_cases hR : env.createResults.all
          (fun c => c == errNoError || c == errTopicAlreadyExists) = true
      · simp [ensureTopicExists, hA, hM, hC, hR]
      · simp [ensureTopicExists, hA, hM, hC, hR]
  · intro hA hCC hall
    have hR : env.createResults.all
        (fun c => c == errNoError || c == errTopicAlreadyExists) = true := by
      rw [List.all_eq_true]
      intro c hc
      rcases hall c hc with h | h <;> simp [h]
    by_cases hM : env.metadataOk = true ∧ 0 < env.metadataTopicsCount
    · simp [ensureTopicExists, hA, hM]
    · simp [ensureTopicExists, hA, hM, hCC, hR]
  · cases hres : (ensureTopicExists env).result <;>
      simp [consumerStartup, hres]
  · intro msg hmsg
    simp [consumerStartup, hmsg]

/-- Claim C10, witness: with a reachable admin client, a metadata probe
reporting no topics, and a creation call answered with
topic-already-exists, provisioning is attempted, reported successful,
and startup reaches consumer creation. -/
theorem topic_provisioning_witness :
    (ensureTopicExists ⟨true, true, 0, true, [36]⟩).createAttempted = true ∧
      (ensureTopicExists ⟨true, true, 0, true, [36]⟩).result = Except.ok () ∧
      StartupStep.createConsumer ∈ consumerStartup ⟨true, true, 0, true, [36]⟩ :=
  ⟨(topic_provisioning_tolerant ⟨true, true, 0, true, [36]⟩).1 rfl (by decide),
    (topic_provisioning_tolerant ⟨true, true, 0, true, [36]⟩).2.1 rfl rfl
      (by decide),
    (topic_provisioning_tolerant ⟨true, true, 0, true, [36]⟩).2.2.1.1⟩

end CanvasLive
